import Mathlib

/-!
Verification of the cockpit-birdnet-go dashboard logic (src/src/app.tsx and
the second revision src/unnamed/part_000; both revisions implement the same
logic, which was checked by diffing them).

The stateful React component is embedded shallowly: every probe or action
becomes a pure function from its external inputs (the results of the spawned
commands, already split into success `Except.ok` with the captured stdout and
failure `Except.error`, and decoded JSON payloads as structures) to the status
record it stores.  JavaScript string semantics (split, trim, replace with a
string pattern, parseInt, includes, startsWith, toUpperCase/toLowerCase over
ASCII, regex /nightly-\d.../ scanning) are modelled by the explicit helpers
below, operating on the character lists of Lean strings.  JavaScript number
semantics matter in one place: an out-of-bounds array index is `undefined`
and arithmetic on it yields NaN, modelled as `Option Int` with `none` = NaN.
A thrown JavaScript exception is modelled as `Except.error ()`.
-/

/-- Whitespace test used by the model of `String.prototype.trim`. -/
def isWS (c : Char) : Bool :=
  c == ' ' || c == '\n' || c == '\t' || c == '\r'

/-- Model of JavaScript `s.trim()`: strips leading and trailing whitespace. -/
def jsTrim (s : String) : String :=
  String.mk (((s.data.dropWhile isWS).reverse.dropWhile isWS).reverse)

/-- Auxiliary state machine for `splitChar`: `cur` holds the reversed chars of
the piece being accumulated. -/
def splitCharAux (sep : Char) : List Char → List Char → List String
  | [], cur => [String.mk cur.reverse]
  | c :: cs, cur =>
    if c == sep then String.mk cur.reverse :: splitCharAux sep cs []
    else splitCharAux sep cs (c :: cur)

/-- Model of JavaScript `s.split(sep)` for a one-character separator: empty
pieces are preserved and the result is never empty (`"".split(x) = [""]`). -/
def splitChar (s : String) (sep : Char) : List String :=
  splitCharAux sep s.data []

/-- `leadEq p l` is true when `p` is an initial run of `l` (model of
JavaScript `l.startsWith(p)` at the list level). -/
def leadEq {α : Type} [BEq α] : List α → List α → Bool
  | [], _ => true
  | _ :: _, [] => false
  | a :: ps, b :: ls => a == b && leadEq ps ls

/-- Model of JavaScript `s.startsWith(p)`. -/
def jsStartsWith (s p : String) : Bool :=
  leadEq p.data s.data

/-- `seqInB pat l` is true when `pat` occurs as a contiguous run inside `l`
(model of JavaScript `l.includes(pat)` at the list level). -/
def seqInB {α : Type} [BEq α] (pat : List α) : List α → Bool
  | [] => pat.isEmpty
  | c :: cs => leadEq pat (c :: cs) || seqInB pat cs

/-- Model of JavaScript `s.includes(sub)` (substring containment). -/
def jsIncludes (s sub : String) : Bool :=
  seqInB sub.data s.data

/-- Propositional form of contiguous containment: `pat` occurs inside `l`. -/
def SeqIn {α : Type} (pat l : List α) : Prop :=
  ∃ s t, l = s ++ pat ++ t

/-- Numeric value of a digit run. -/
def digitsVal (cs : List Char) : Nat :=
  cs.foldl (fun n c => n * 10 + (c.toNat - 48)) 0

/-- Leading decimal digits of a character list, `none` when there are none
(the NaN case of `parseInt`). -/
def leadingDigits (cs : List Char) : Option Nat :=
  let ds := cs.takeWhile Char.isDigit
  if ds.isEmpty then none else some (digitsVal ds)

/-- Model of JavaScript `parseInt(s)` (radix 10): skip leading whitespace, an
optional sign, then read leading digits; `none` models NaN.  The legacy
`0x`-prefix hexadecimal guess of `parseInt` is not modelled; no version or
date string handled by this program starts with `0x`. -/
def jsParseInt (s : String) : Option Int :=
  match s.data.dropWhile isWS with
  | '-' :: rest => (leadingDigits rest).map (fun n => -(n : Int))
  | '+' :: rest => (leadingDigits rest).map (fun n => (n : Int))
  | cs => (leadingDigits cs).map (fun n => (n : Int))

/-- Removes the first occurrence of the character `c`, if any. -/
def removeFirst (c : Char) : List Char → List Char
  | [] => []
  | x :: xs => if x == c then xs else x :: removeFirst c xs

/-- Model of JavaScript `s.replace(c, "")` with a one-character string
pattern: only the first occurrence is replaced. -/
def jsReplaceFirst (s : String) (c : Char) : String :=
  String.mk (removeFirst c s.data)

/-- Model of JavaScript `s.toUpperCase()` over the ASCII range. -/
def jsToUpper (s : String) : String :=
  String.mk (s.data.map Char.toUpper)

/-- Strict `>` on JavaScript numbers that may be NaN (`none`): every
comparison against NaN is false. -/
def jsNumGT (a b : Option Int) : Bool :=
  match a, b with
  | some x, some y => decide (y < x)
  | _, _ => false

/-! ## Data model (section 3 of the spec) -/

/-- `DockerStatus`, from the `DockerStatus` interface of app.tsx. -/
structure DockerStatus where
  available : Bool
  running : Bool
  version : Option String
deriving DecidableEq

/-- `ContainerStatus`, from the `ContainerStatus` interface of app.tsx
(`exists` is a Lean keyword, hence `exists_`). -/
structure ContainerStatus where
  exists_ : Bool
  running : Bool
  imagePresent : Bool
  containerId : Option String
  status : Option String
deriving DecidableEq

/-- The health payload; `checkBirdNetGoStatus` only reads its `status`
field, so only that field is modelled. -/
structure HealthData where
  status : String
deriving DecidableEq

/-- `VersionInfo`, from the `VersionInfo` interface of app.tsx.  Optional
fields are `Option`; a JavaScript field holding `undefined` is `none`. -/
structure VersionInfo where
  current : String
  buildDate : String
  latest : Option String
  latestNightly : Option String
  nightlyTags : Option (List String)
  updateAvailable : Bool
  checkingUpdate : Bool
  updateError : Option String
  releaseNotes : Option String
  releaseUrl : Option String
deriving DecidableEq

/-! ## Docker probe (app.tsx lines 129-145) -/

/-- `checkDockerStatus`: the two spawned commands are `docker --version` and
`systemctl is-active docker`; either failure reaches the catch block, which
stores the fully-degraded record.  (When the first command fails the second
is never run; the stored record is the same either way.) -/
def checkDockerStatus (versionResult serviceResult : Except Unit String) :
    DockerStatus :=
  match versionResult, serviceResult with
  | .ok v, .ok s =>
      { available := true, running := jsTrim s == "active",
        version := some (jsTrim v) }
  | _, _ => { available := false, running := false, version := none }

/-! ## Stable version comparison (app.tsx lines 683-686) -/

/-- `parseVersion` from `checkForUpdates`:
`v.split('.').map(p => parseInt(p) || 0)` then
`parts[0]*10000 + parts[1]*100 + parts[2]`.  Each *present* part maps
NaN to 0 via `|| 0`; an *absent* index is `undefined` and poisons the sum
to NaN, modelled by `none`. -/
def parseVersion (v : String) : Option Int :=
  let parts := (splitChar v '.').map (fun p => (jsParseInt p).getD 0)
  match parts[0]?, parts[1]?, parts[2]? with
  | some a, some b, some c => some (a * 10000 + b * 100 + c)
  | _, _, _ => none

/-! ## Application status probe (app.tsx lines 199-310) -/

/-- The predicate of `containerLines.find(...)` in `checkBirdNetGoStatus`.
`parts[1]` (the image column) is `undefined` when the line has no `|`;
calling `.startsWith` on it throws, modelled as `Except.error ()`.
`parts[3]` (the name column) is only compared with `===`, which is simply
false on `undefined`. -/
def birdnetMatch (line : String) : Except Unit Bool :=
  let parts := splitChar line '|'
  match parts[1]? with
  | none => .error ()
  | some image =>
    if jsStartsWith image "vsc-" then .ok false
    else .ok (jsStartsWith image "ghcr.io/tphakala/birdnet-go" ||
              image == "birdnet-go" || parts[3]? == some "birdnet-go")

/-- `Array.prototype.find` over the container lines, propagating an
exception thrown by the predicate. -/
def findBirdnet : List String → Except Unit (Option String)
  | [] => .ok none
  | l :: ls =>
    match birdnetMatch l with
    | .error e => .error e
    | .ok true => .ok (some l)
    | .ok false => findBirdnet ls

/-- `checkBirdNetGoStatus`.  Inputs: the stdout of
`docker images --format ...` (`none` when the spawn failed), the combined
outcome of the health probe (curl + `JSON.parse`: `.error ()` when the spawn
or the parse threw — caught by the probe's inner try — `.ok none` for an
empty response, `.ok (some h)` for a parsed payload), and the stdout of
`docker ps -a --format ...` (`none` when the spawn failed).  Any exception
escaping the body (a failed spawn, or the `undefined` field accesses noted
in `birdnetMatch`) reaches the outer catch, which stores the fully-degraded
record. -/
def checkBirdNetGoStatus (images : Option String)
    (health : Except Unit (Option HealthData))
    (psOutput : Option String) : ContainerStatus :=
  let degraded : ContainerStatus :=
    { exists_ := false, running := false, imagePresent := false,
      containerId := none, status := none }
  match images with
  | none => degraded
  | some images =>
    let imagePresent := jsIncludes images "ghcr.io/tphakala/birdnet-go"
    let isActuallyRunning :=
      match health with
      | .ok (some h) => h.status == "healthy" || h.status == "degraded"
      | _ => false
    match psOutput with
    | none => degraded
    | some containers =>
      if jsTrim containers != "" then
        let containerLines := splitChar (jsTrim containers) '\n'
        match findBirdnet containerLines with
        | .error _ => degraded
        | .ok (some line) =>
          let parts := splitChar line '|'
          match parts[2]? with
          | none => degraded
          | some status =>
            { exists_ := true,
              running := isActuallyRunning || jsStartsWith status "Up",
              imagePresent := imagePresent,
              containerId := parts[0]?,
              status := some status }
        | .ok none =>
          if isActuallyRunning then
            { exists_ := true, running := true, imagePresent := imagePresent,
              containerId := none,
              status := some "Running (non-Docker or custom container)" }
          else
            { exists_ := false, running := false, imagePresent := imagePresent,
              containerId := none, status := none }
      else
        if isActuallyRunning then
          { exists_ := true, running := true, imagePresent := imagePresent,
            containerId := none, status := some "Running (non-Docker)" }
        else
          { exists_ := false, running := false, imagePresent := imagePresent,
            containerId := none, status := none }

/-- A `docker ps` listing in the engine's `{{.ID}}|{{.Image}}|{{.Status}}|{{.Names}}`
format: empty, or every line has the four pipe-separated columns. -/
def psWellFormed (s : String) : Bool :=
  jsTrim s == "" ||
    (splitChar (jsTrim s) '\n').all (fun l => decide (4 ≤ (splitChar l '|').length))

/-! ## Version reconciler (app.tsx lines 587-717) -/

/-- Tries the regex `/nightly-(\d{8})/` at the head of `s`: the literal
`nightly-` followed by at least eight digits; returns the value of the
captured eight digits. -/
def tryNightlyAt (s : List Char) : Option Nat :=
  if leadEq "nightly-".data s then
    let ds := (s.drop 8).take 8
    if ds.length == 8 && ds.all Char.isDigit then some (digitsVal ds) else none
  else none

/-- First match of `/nightly-(\d{8})/` anywhere in the character list,
as JavaScript `String.prototype.match` finds it; `none` when the pattern
does not occur.  (`parseInt` of the captured group is `digitsVal`: eight
digits always parse.) -/
def scanNightly : List Char → Option Nat
  | [] => none
  | c :: cs =>
    match tryNightlyAt (c :: cs) with
    | some d => some d
    | none => scanNightly cs

/-- The tag filter of the registry loop:
`tag.startsWith('nightly-') && tag.match(/nightly-\d{8}/)`. -/
def tagMatches (t : String) : Bool :=
  jsStartsWith t "nightly-" && (scanNightly t.data).isSome

/-- The date embedded in a tag (`0` when the pattern is absent; only used
on tags where it is present). -/
def dateOf (t : String) : Nat :=
  (scanNightly t.data).getD 0

/-- Accumulator of the registry loop: the collected `nightlyTags` plus the
running `latestNightlyDate` / `latestNightlyTag`. -/
structure NightlyAcc where
  tags : List String
  latestDate : Nat
  latestTag : String
deriving DecidableEq

/-- One step of the registry loop body for a single tag: push matching tags
and update the running maximum when the embedded date is strictly greater. -/
def stepTag (acc : NightlyAcc) (tag : String) : NightlyAcc :=
  if tagMatches tag then
    let newTags := acc.tags ++ [tag]
    match scanNightly tag.data with
    | some date =>
      if acc.latestDate < date then ⟨newTags, date, tag⟩
      else ⟨newTags, acc.latestDate, acc.latestTag⟩
    | none => ⟨newTags, acc.latestDate, acc.latestTag⟩
  else acc

/-- The nested `versions.forEach(version => version.metadata?.container?.tags
.forEach(tag => ...))` visits every tag of every version in order; a version
without a tags array contributes nothing.  A registry response is modelled as
the decoded list of versions, each carrying its optional tags array. -/
def flattenTags (versions : List (Option (List String))) : List String :=
  versions.flatMap (fun o => o.getD [])

/-- Insertion step of the tag sort, descending by embedded date and stable
(a new tag goes after existing tags of the same date). -/
def insertTagDesc (t : String) : List String → List String
  | [] => [t]
  | u :: us =>
    if dateOf t ≤ dateOf u then u :: insertTagDesc t us else t :: u :: us

/-- Model of `nightlyTags.sort((a, b) => dateB - dateA)`: a stable sort,
descending by the embedded date (Array.prototype.sort is stable). -/
def sortTagsDesc (l : List String) : List String :=
  l.foldl (fun acc t => insertTagDesc t acc) []

/-- The tags of a registry response that pass the nightly-pattern filter, in
traversal order (specification-side view of the loop's `nightlyTags`). -/
def matchingTags (versions : List (Option (List String))) : List String :=
  (flattenTags versions).filter tagMatches

/-- Greatest embedded date among a list of tags (`0` for the empty list). -/
def maxDateOf (l : List String) : Nat :=
  l.foldl (fun m t => max m (dateOf t)) 0

/-- The fields of the GitHub releases payload read by the stable path. -/
structure StableRelease where
  tag_name : Option String
  body : Option String
  html_url : Option String
deriving DecidableEq

/-- The `setVersionInfo` merge performed on a successful nightly registry
response (app.tsx lines 611-655), starting from the state `v1` that already
has `checkingUpdate := true`. -/
def nightlyRegistryUpdate (v1 : VersionInfo) (currentDate : Nat)
    (versions : List (Option (List String))) : VersionInfo :=
  let out := (flattenTags versions).foldl stepTag ⟨[], 0, ""⟩
  let updateAvailable := decide (currentDate < out.latestDate)
  { v1 with
    latestNightly := some (if out.latestTag = "" then "nightly" else out.latestTag),
    nightlyTags := some ((sortTagsDesc out.tags).take 5),
    updateAvailable := updateAvailable,
    checkingUpdate := false,
    releaseNotes := some (if updateAvailable
      then "Newer nightly build available: " ++ out.latestTag
      else "You are on the latest nightly build"),
    releaseUrl := some "https://github.com/tphakala/birdnet-go/pkgs/container/birdnet-go" }

/-- The `setVersionInfo` merge performed on a successful stable releases
response (app.tsx lines 678-707). -/
def stableReleaseUpdate (v1 : VersionInfo) (currentVersion : String)
    (release : StableRelease) : VersionInfo :=
  let latestStable := release.tag_name.map (fun t => jsReplaceFirst t 'v')
  let updateAvailable :=
    match latestStable with
    | some ls =>
      if ls != "" && currentVersion != "" then
        let cleanCurrent := (splitChar currentVersion '-').headD ""
        jsNumGT (parseVersion ls) (parseVersion cleanCurrent)
      else false
    | none => false
  { v1 with
    latest := latestStable,
    updateAvailable := updateAvailable,
    checkingUpdate := false,
    releaseNotes := release.body,
    releaseUrl := release.html_url }

/-- `checkForUpdates`.  Inputs: the previous `versionInfo` state, the nightly
registry interaction (`.error ()` when the curl spawn, `JSON.parse`, or the
forEach over a non-array threw — all inside the inner try — `.ok none` when
curl returned an empty body, `.ok (some versions)` for a decoded response),
and the stable releases interaction (same shape; its failures are *not*
wrapped in an inner try, so `.error ()` reaches the outer catch).  Only the
branch matching the current version's nightly-ness consults its input.
The dead inner try/catch around `parseVersion` (which never throws) is not
modelled. -/
def checkForUpdates (prev : VersionInfo)
    (registry : Except Unit (Option (List (Option (List String)))))
    (releases : Except Unit (Option StableRelease)) : VersionInfo :=
  let v1 := { prev with checkingUpdate := true, updateError := none }
  let currentVersion := jsReplaceFirst prev.current 'v'
  if jsIncludes currentVersion "nightly" then
    let currentDate :=
      match scanNightly currentVersion.data with
      | some d => d
      | none => 0
    match registry with
    | .error _ =>
      { v1 with
        latest := some "nightly (development build)",
        updateAvailable := false,
        checkingUpdate := false,
        releaseNotes := some "Nightly builds contain the latest development features and fixes",
        releaseUrl := some "https://github.com/tphakala/birdnet-go/pkgs/container/birdnet-go" }
    | .ok none => v1
    | .ok (some versions) => nightlyRegistryUpdate v1 currentDate versions
  else
    match releases with
    | .error _ =>
      { v1 with checkingUpdate := false,
                updateError := some "Failed to check for updates" }
    | .ok none => v1
    | .ok (some release) => stableReleaseUpdate v1 currentVersion release

/-! ## Upgrade orchestrator (app.tsx lines 719-819) -/

/-- One host-port binding object from `HostConfig.PortBindings`. -/
structure PortBinding where
  HostPort : String
deriving DecidableEq

/-- One mount object from the inspect output.  The source field is named
`Type`, which is reserved in Lean, hence `mtype`. -/
structure MountEntry where
  mtype : String
  Source : String
  Destination : String
deriving DecidableEq

/-- The parts of `docker inspect` output read by `upgradeBirdNetGo`.
`PortBindings` is an object traversed with `Object.entries` (modelled as an
association list in entry order); a value that is not an array fails the
`Array.isArray` guard and is modelled as `none`. -/
structure InspectConfig where
  Name : String
  PortBindings : Option (List (String × Option (List PortBinding)))
  Mounts : Option (List MountEntry)
  Env : Option (List String)
deriving DecidableEq

/-- The `-p` arguments pushed for the preserved port mappings. -/
def portArgs (pbs : List (String × Option (List PortBinding))) : List String :=
  pbs.flatMap (fun p =>
    match p.2 with
    | some hostPorts =>
      hostPorts.flatMap (fun b =>
        ["-p", b.HostPort ++ ":" ++ (splitChar p.1 '/').headD ""])
    | none => [])

/-- The `-v` arguments pushed for the preserved bind mounts. -/
def mountArgs (ms : List MountEntry) : List String :=
  ms.flatMap (fun m =>
    if m.mtype == "bind" then ["-v", m.Source ++ ":" ++ m.Destination] else [])

/-- The `-e` arguments pushed for the preserved environment variables,
skipping `PATH=` and `HOME=` entries. -/
def envArgs (envs : List String) : List String :=
  envs.flatMap (fun e =>
    if jsStartsWith e "PATH=" || jsStartsWith e "HOME=" then [] else ["-e", e])

/-- The full `docker run` argument list built for the replacement container
(app.tsx lines 767-803): fixed head, then ports, mounts, environment, and
finally the image name. -/
def buildCreateArgs (config : InspectConfig) (imageName : String) : List String :=
  ["docker", "run", "-d", "--name", jsReplaceFirst config.Name '/',
   "--restart", "unless-stopped"]
  ++ portArgs (config.PortBindings.getD [])
  ++ mountArgs (config.Mounts.getD [])
  ++ envArgs (config.Env.getD [])
  ++ [imageName]

/-- Outcome of one run of `upgradeBirdNetGo`: the commands it spawned, in
order, and the `alert` message shown to the user, if any. -/
structure UpgradeResult where
  commands : List (List String)
  alerted : Option String
deriving DecidableEq

/-- The generic alert of the catch block of `upgradeBirdNetGo`. -/
def upgradeFailAlert : String := "Failed to upgrade BirdNET-Go. Please check the logs."

/-- `upgradeBirdNetGo` as a command trace.  Inputs: the two status records
and `versionInfo` it reads, whether a systemd unit exists, the container id
(if any), an oracle giving each spawned command's outcome, and the decoder
for `JSON.parse(inspect output)[0]` (`.error ()` when the parse threw or a
read field had the wrong shape).  The trailing `refreshStatus()` /
`checkForUpdates()` calls only re-run the probes and are outside this model.
A failed spawn aborts the remaining steps and reaches the catch block. -/
def upgradeBirdNetGo (docker : DockerStatus) (version : VersionInfo)
    (systemdExists : Bool) (containerId : Option String)
    (oracle : List String → Except Unit String)
    (decodeInspect : String → Except Unit InspectConfig) : UpgradeResult :=
  if !docker.available then
    ⟨[], some "Docker is not available. Please install Docker to upgrade BirdNET-Go."⟩
  else if !docker.running then
    ⟨[], some "Docker service is not running. Please start Docker service first."⟩
  else
    let imageTag :=
      if jsIncludes version.current "nightly" then
        match version.latestNightly with
        | some t => if t = "" then "nightly" else t
        | none => "nightly"
      else
        match version.latest with
        | some l => if l = "" then "latest" else "v" ++ l
        | none => "latest"
    let imageName := "ghcr.io/tphakala/birdnet-go:" ++ imageTag
    let pullCmd := ["docker", "pull", imageName]
    match oracle pullCmd with
    | .error _ => ⟨[pullCmd], some upgradeFailAlert⟩
    | .ok _ =>
      if systemdExists then
        let restartCmd := ["systemctl", "restart", "birdnet-go.service"]
        match oracle restartCmd with
        | .error _ => ⟨[pullCmd, restartCmd], some upgradeFailAlert⟩
        | .ok _ => ⟨[pullCmd, restartCmd], none⟩
      else
        match containerId with
        | none => ⟨[pullCmd], none⟩
        | some cid =>
          let stopCmd := ["docker", "stop", cid]
          match oracle stopCmd with
          | .error _ => ⟨[pullCmd, stopCmd], some upgradeFailAlert⟩
          | .ok _ =>
            let inspectCmd := ["docker", "inspect", cid]
            match oracle inspectCmd with
            | .error _ => ⟨[pullCmd, stopCmd, inspectCmd], some upgradeFailAlert⟩
            | .ok configJson =>
              match decodeInspect configJson with
              | .error _ => ⟨[pullCmd, stopCmd, inspectCmd], some upgradeFailAlert⟩
              | .ok config =>
                let rmCmd := ["docker", "rm", cid]
                match oracle rmCmd with
                | .error _ =>
                  ⟨[pullCmd, stopCmd, inspectCmd, rmCmd], some upgradeFailAlert⟩
                | .ok _ =>
                  let runCmd := buildCreateArgs config imageName
                  match oracle runCmd with
                  | .error _ =>
                    ⟨[pullCmd, stopCmd, inspectCmd, rmCmd, runCmd], some upgradeFailAlert⟩
                  | .ok _ =>
                    ⟨[pullCmd, stopCmd, inspectCmd, rmCmd, runCmd], none⟩

/-! ## Log fetchers and the log filter (app.tsx lines 821-845 and 862-874) -/

/-- A parsed structured log record: the key/value pairs of the JSON object,
in order.  Values are modelled as strings. -/
structure LogEntry where
  fields : List (String × String)
deriving DecidableEq

/-- Reading `log.level`: the value at key `"level"`, `none` when absent
(JavaScript `undefined`). -/
def LogEntry.level (e : LogEntry) : Option String :=
  e.fields.lookup "level"

/-- The tail command issued by `fetchAppLogs` for the selected log file. -/
def appLogTailCommand (file : String) : List String :=
  ["tail", "-n", "500", "/home/thakala/birdnet-go-app/data/logs/" ++ file]

/-- The parsing pipeline of `fetchAppLogs` on the tail output:
trim, split into lines, parse each line (`parse` stands for
`JSON.parse`-or-null on one line), drop the failures, reverse.
(`List.reduceOption` is exactly the `.filter(log => log !== null)` step on
the list of optional parses.) -/
def fetchAppLogs (parse : String → Option LogEntry) (tailOutput : String) :
    List LogEntry :=
  ((splitChar (jsTrim tailOutput) '\n').map parse).reduceOption.reverse

/-- JSON serialization of one field, as `JSON.stringify` renders it. -/
def fieldJsonChars (kv : String × String) : List Char :=
  '"' :: kv.1.data ++ '"' :: ':' :: '"' :: kv.2.data ++ ['"']

/-- JSON serialization of a field list, comma-separated. -/
def fieldsJsonChars : List (String × String) → List Char
  | [] => []
  | [kv] => fieldJsonChars kv
  | kv :: rest => fieldJsonChars kv ++ ',' :: fieldsJsonChars rest

/-- Model of `JSON.stringify(log)` for a flat record with string values
(escaping inside values is not modelled; no searched-for text in the claims
contains characters JSON would escape). -/
def stringifyEntry (e : LogEntry) : String :=
  String.mk ('\x7b' :: fieldsJsonChars e.fields ++ ['\x7d'])

/-- Model of `hay.toLowerCase().includes(needle.toLowerCase())`. -/
def jsIncludesCI (hay needle : String) : Bool :=
  seqInB (needle.data.map Char.toLower) (hay.data.map Char.toLower)

/-- The predicate of the `filteredLogs` filter: drop the entry when a level
filter other than `all` does not match `log.level` case-insensitively
(an absent level never matches), then drop it when a non-empty search text
does not occur in the lower-cased serialization of the whole entry. -/
def keepLog (levelFilter searchText : String) (e : LogEntry) : Bool :=
  if levelFilter != "all" && (e.level.map jsToUpper) != some (jsToUpper levelFilter) then
    false
  else if searchText != "" && !jsIncludesCI (stringifyEntry e) searchText then
    false
  else true

/-- `filteredLogs`: `appLogs.filter(log => ...)`. -/
def filteredLogs (levelFilter searchText : String) (logs : List LogEntry) :
    List LogEntry :=
  logs.filter (keepLog levelFilter searchText)

/-! ## Concrete records used by the witness instances -/

/-- An inspect configuration with one port binding, one bind mount, and an
environment containing `PATH`/`HOME` entries plus one user variable. -/
def sampleInspectConfig : InspectConfig :=
  { Name := "/birdnet-go",
    PortBindings := some [("8080/tcp", some [{ HostPort := "8080" }])],
    Mounts := some [{ mtype := "bind", Source := "/data", Destination := "/data" }],
    Env := some ["PATH=/usr/bin", "FOO=bar", "HOME=/root"] }

/-- A prior `VersionInfo` state on a nightly build. -/
def sampleNightlyPrev : VersionInfo :=
  { current := "nightly-20250101", buildDate := "2025-01-01", latest := none,
    latestNightly := none, nightlyTags := none, updateAvailable := false,
    checkingUpdate := false, updateError := none, releaseNotes := none,
    releaseUrl := none }

/-! ## Containment toolkit -/

theorem SeqIn.append_left {α : Type} {pat l : List α} (t : List α)
    (h : SeqIn pat l) : SeqIn pat (l ++ t) := by
  obtain ⟨s, u, rfl⟩ := h
  exact ⟨s, u ++ t, by simp⟩

theorem SeqIn.append_right {α : Type} {pat l : List α} (s : List α)
    (h : SeqIn pat l) : SeqIn pat (s ++ l) := by
  obtain ⟨s1, t, rfl⟩ := h
  exact ⟨s ++ s1, t, by simp⟩

theorem SeqIn.trans {α : Type} {p q l : List α}
    (h1 : SeqIn p q) (h2 : SeqIn q l) : SeqIn p l := by
  obtain ⟨s1, t1, rfl⟩ := h1
  obtain ⟨s2, t2, rfl⟩ := h2
  exact ⟨s2 ++ s1, t1 ++ t2, by simp⟩

theorem SeqIn.map {α β : Type} (f : α → β) {pat l : List α}
    (h : SeqIn pat l) : SeqIn (pat.map f) (l.map f) := by
  obtain ⟨s, t, rfl⟩ := h
  exact ⟨s.map f, t.map f, by simp⟩

theorem seqIn_of_mem_flatMap {α β : Type} (f : α → List β) {x : α}
    {l : List α} (h : x ∈ l) : SeqIn (f x) (l.flatMap f) := by
  induction l with
  | nil => cases h
  | cons a l ih =>
    rcases List.mem_cons.mp h with rfl | h2
    · exact ⟨[], l.flatMap f, by simp⟩
    · simpa using SeqIn.append_right (f a) (ih h2)

theorem leadEq_iff {α : Type} [BEq α] [LawfulBEq α] {p l : List α} :
    leadEq p l = true ↔ ∃ t, l = p ++ t := by
  induction p generalizing l with
  | nil => simp [leadEq]
  | cons a ps ih =>
    cases l with
    | nil => simp [leadEq]
    | cons b ls =>
      simp only [leadEq, Bool.and_eq_true, beq_iff_eq, ih]
      constructor
      · rintro ⟨rfl, t, rfl⟩
        exact ⟨t, rfl⟩
      · rintro ⟨t, h⟩
        obtain ⟨rfl, rfl⟩ : b = a ∧ ls = ps ++ t := by
          simpa using h
        exact ⟨rfl, t, rfl⟩

theorem seqInB_iff {α : Type} [BEq α] [LawfulBEq α] {p l : List α} :
    seqInB p l = true ↔ SeqIn p l := by
  induction l with
  | nil =>
    simp only [seqInB, List.isEmpty_iff, SeqIn]
    constructor
    · rintro rfl
      exact ⟨[], [], rfl⟩
    · rintro ⟨s, t, h⟩
      exact (List.append_eq_nil.mp (List.append_eq_nil.mp h.symm).1).2
  | cons c cs ih =>
    simp only [seqInB, Bool.or_eq_true, leadEq_iff, ih]
    constructor
    · rintro (⟨t, ht⟩ | ⟨s, t, rfl⟩)
      · exact ⟨[], t, by simpa using ht⟩
      · exact ⟨c :: s, t, rfl⟩
    · rintro ⟨s, t, h⟩
      cases s with
      | nil => exact Or.inl ⟨t, by simpa using h⟩
      | cons a s1 =>
        obtain ⟨rfl, h2⟩ : c = a ∧ cs = s1 ++ p ++ t := by
          simpa using h
        exact Or.inr ⟨s1, t, h2⟩

theorem reduceOption_map_eq {α β : Type} (l : List α) (f : α → Option β) :
    (l.map f).reduceOption = l.filterMap f := by
  simp [List.reduceOption, List.filterMap_map]

/-! ## Claim theorems -/

/-- C9: if either the docker version check or the docker service-active
check fails, `checkDockerStatus` yields exactly the fully-degraded record
`{available := false, running := false}` (with no version), and no error
reaches the caller (the probes are total functions); likewise the
application probe collapses to its fully-degraded record when either of
its spawned commands fails. -/
theorem checkDockerStatus_degrades_on_failure
    (versionResult serviceResult : Except Unit String)
    (h : versionResult = .error () ∨ serviceResult = .error ()) :
    checkDockerStatus versionResult serviceResult =
      { available := false, running := false, version := none } ∧
    (∀ (health : Except Unit (Option HealthData)) (ps : Option String),
      checkBirdNetGoStatus none health ps =
        { exists_ := false, running := false, imagePresent := false,
          containerId := none, status := none }) ∧
    (∀ (images : String) (health : Except Unit (Option HealthData)),
      checkBirdNetGoStatus (some images) health none =
        { exists_ := false, running := false, imagePresent := false,
          containerId := none, status := none }) := by
  refine ⟨?_, fun health ps => rfl, fun images health => rfl⟩
  rcases h with rfl | rfl
  · cases serviceResult <;> rfl
  · cases versionResult <;> rfl

/-- Witness for C9 at a concrete failing input. -/
theorem checkDockerStatus_degrades_on_failure_witness :
    checkDockerStatus (.error ()) (.ok "active") =
      { available := false, running := false, version := none } :=
  (checkDockerStatus_degrades_on_failure _ _ (Or.inl rfl)).1

/-- C2 counterexample: `parseVersion "1.2"` is NaN (the out-of-bounds
`parts[2]` is `undefined` and poisons the sum), so it does not equal
`parseVersion "1.2.0" = 10200` — the missing patch component is not
treated as 0. -/
theorem parseVersion_two_component_nan :
    parseVersion "1.2" = none ∧ parseVersion "1.2.0" = some 10200 ∧
    parseVersion "1.2" ≠ parseVersion "1.2.0" := by decide

/-- C2 (amended): on three-component versions `parseVersion` computes
`major*10000 + minor*100 + patch` with non-numeric components defaulting
to 0, giving the claimed ordering 1.2.3 < 1.3.0 < 2.0.0; the two-component
input "1.2" does not error but yields NaN (not the value of "1.2.0"),
which compares false against every number in either direction. -/
theorem parseVersion_order_and_missing_patch :
    parseVersion "1.2.3" = some 10203 ∧ parseVersion "1.3.0" = some 10300 ∧
    parseVersion "2.0.0" = some 20000 ∧
    jsNumGT (parseVersion "1.3.0") (parseVersion "1.2.3") = true ∧
    jsNumGT (parseVersion "2.0.0") (parseVersion "1.3.0") = true ∧
    parseVersion "1.x.3" = some 10003 ∧
    parseVersion "1.2" = none ∧
    jsNumGT (parseVersion "1.2.0") (parseVersion "1.2") = false ∧
    jsNumGT (parseVersion "1.2") (parseVersion "1.2.0") = false := by decide

/-- C4: `checkForUpdates` never touches `current` or `buildDate` on any
path, and when the whole operation throws (the un-wrapped stable-path
interaction fails) the result is exactly the prior record with
`checkingUpdate := false` and `updateError` set — in particular
`updateAvailable` and every other previously set field are unchanged. -/
theorem checkForUpdates_preserves_fields (prev : VersionInfo)
    (registry : Except Unit (Option (List (Option (List String)))))
    (releases : Except Unit (Option StableRelease)) :
    ((checkForUpdates prev registry releases).current = prev.current ∧
     (checkForUpdates prev registry releases).buildDate = prev.buildDate) ∧
    (jsIncludes (jsReplaceFirst prev.current 'v') "nightly" = false →
      checkForUpdates prev registry (.error ()) =
        { prev with checkingUpdate := false,
                    updateError := some "Failed to check for updates" }) := by
  constructor
  · constructor <;>
      · unfold checkForUpdates nightlyRegistryUpdate stableReleaseUpdate
        dsimp only
        repeat' split
        all_goals rfl
  · intro hb
    unfold checkForUpdates
    simp [hb]

/-- Witness for C4 at a concrete stable-path failure. -/
theorem checkForUpdates_preserves_fields_witness :
    checkForUpdates
      { current := "1.2.3", buildDate := "2025-01-01", latest := some "1.2.3",
        latestNightly := none, nightlyTags := none, updateAvailable := true,
        checkingUpdate := true, updateError := none,
        releaseNotes := some "notes", releaseUrl := some "url" }
      (.ok none) (.error ()) =
      { current := "1.2.3", buildDate := "2025-01-01", latest := some "1.2.3",
        latestNightly := none, nightlyTags := none, updateAvailable := true,
        checkingUpdate := false, updateError := some "Failed to check for updates",
        releaseNotes := some "notes", releaseUrl := some "url" } :=
  (checkForUpdates_preserves_fields _ (.ok none) (.error ())).2 (by decide)

/-- C6: when Docker is unavailable or its service is not running,
`upgradeBirdNetGo` issues no command at all (no pull, stop, rm, or run)
and surfaces a user-facing alert — the specific precondition message, not
the generic catch-block failure. -/
theorem upgradeBirdNetGo_refuses_without_docker (docker : DockerStatus)
    (version : VersionInfo) (systemdExists : Bool) (containerId : Option String)
    (oracle : List String → Except Unit String)
    (decodeInspect : String → Except Unit InspectConfig)
    (h : docker.available = false ∨ docker.running = false) :
    (upgradeBirdNetGo docker version systemdExists containerId oracle
        decodeInspect).commands = [] ∧
    ((upgradeBirdNetGo docker version systemdExists containerId oracle
        decodeInspect).alerted =
      some "Docker is not available. Please install Docker to upgrade BirdNET-Go." ∨
     (upgradeBirdNetGo docker version systemdExists containerId oracle
        decodeInspect).alerted =
      some "Docker service is not running. Please start Docker service first.") := by
  rcases h with h1 | h1
  · unfold upgradeBirdNetGo
    rw [h1]
    exact ⟨rfl, Or.inl rfl⟩
  · cases hA : docker.available
    · unfold upgradeBirdNetGo
      rw [hA]
      exact ⟨rfl, Or.inl rfl⟩
    · unfold upgradeBirdNetGo
      rw [hA, h1]
      exact ⟨rfl, Or.inr rfl⟩

/-- Witness for C6 with Docker absent. -/
theorem upgradeBirdNetGo_refuses_without_docker_witness :
    (upgradeBirdNetGo { available := false, running := false, version := none }
      { current := "1.2.3", buildDate := "", latest := none, latestNightly := none,
        nightlyTags := none, updateAvailable := false, checkingUpdate := false,
        updateError := none, releaseNotes := none, releaseUrl := none }
      false (some "abc") (fun _ => .ok "") (fun _ => .error ())).commands = [] ∧
    ((upgradeBirdNetGo { available := false, running := false, version := none }
      { current := "1.2.3", buildDate := "", latest := none, latestNightly := none,
        nightlyTags := none, updateAvailable := false, checkingUpdate := false,
        updateError := none, releaseNotes := none, releaseUrl := none }
      false (some "abc") (fun _ => .ok "") (fun _ => .error ())).alerted =
      some "Docker is not available. Please install Docker to upgrade BirdNET-Go." ∨
     (upgradeBirdNetGo { available := false, running := false, version := none }
      { current := "1.2.3", buildDate := "", latest := none, latestNightly := none,
        nightlyTags := none, updateAvailable := false, checkingUpdate := false,
        updateError := none, releaseNotes := none, releaseUrl := none }
      false (some "abc") (fun _ => .ok "") (fun _ => .error ())).alerted =
      some "Docker service is not running. Please start Docker service first.") :=
  upgradeBirdNetGo_refuses_without_docker _ _ _ _ _ _ (Or.inl rfl)

/-- C7: `fetchAppLogs` requests exactly the last 500 lines of the selected
file, splits the trimmed result into lines, keeps exactly the lines the
per-line JSON parse accepts, and stores them reversed, so the head of the
stored list is the last surviving (newest) line of the tail window. -/
theorem fetchAppLogs_tail500_parse_reverse (parse : String → Option LogEntry)
    (tailOutput : String) (file : String) :
    fetchAppLogs parse tailOutput =
      ((splitChar (jsTrim tailOutput) '\n').filterMap parse).reverse ∧
    (fetchAppLogs parse tailOutput).head? =
      ((splitChar (jsTrim tailOutput) '\n').filterMap parse).getLast? ∧
    appLogTailCommand file =
      ["tail", "-n", "500", "/home/thakala/birdnet-go-app/data/logs/" ++ file] := by
  refine ⟨?_, ?_, rfl⟩
  · unfold fetchAppLogs
    rw [reduceOption_map_eq]
  · unfold fetchAppLogs
    rw [reduceOption_map_eq, List.head?_reverse]

theorem findBirdnet_wf (lines : List String)
    (h : ∀ l ∈ lines, 4 ≤ (splitChar l '|').length) :
    (∃ line, findBirdnet lines = .ok (some line) ∧ line ∈ lines) ∨
      findBirdnet lines = .ok none := by
  induction lines with
  | nil => exact Or.inr rfl
  | cons l ls ih =>
    have h1 : 4 ≤ (splitChar l '|').length := h l (by simp)
    have himg : (splitChar l '|')[1]? = some (splitChar l '|')[1] :=
      List.getElem?_eq_getElem (by omega)
    have hb : ∃ b, birdnetMatch l = .ok b := by
      unfold birdnetMatch
      dsimp only
      split
      · next heq => simp [himg] at heq
      · next =>
          split
          · exact ⟨false, rfl⟩
          · exact ⟨_, rfl⟩
    obtain ⟨b, hb⟩ := hb
    cases b with
    | true =>
      exact Or.inl ⟨l, by simp [findBirdnet, hb], by simp⟩
    | false =>
      rcases ih (fun x hx => h x (by simp [hx])) with ⟨line, hf, hm⟩ | hf
      · exact Or.inl ⟨line, by simp [findBirdnet, hb, hf], by simp [hm]⟩
      · exact Or.inr (by simp [findBirdnet, hb, hf])

/-- C1 counterexample: with a healthy payload but a `docker ps` listing
whose single line has no `|` separator, the image column read in the find
predicate is `undefined`, the `.startsWith` call on it throws, the outer
catch stores the fully-degraded record, and `running` is `false` — not
`true` as the claim requires for every listing. -/
theorem checkBirdNetGoStatus_malformed_listing :
    (HealthData.mk "healthy").status = "healthy" ∧
    (checkBirdNetGoStatus (some "") (.ok (some (HealthData.mk "healthy")))
        (some "oops")).running = false := by decide

/-- C1 (amended): for every health payload whose status is `healthy` or
`degraded` and every `docker ps` listing in the engine's four-column
format (or empty), `checkBirdNetGoStatus` reports `running = true` with a
descriptive status string, whatever the listing says — matched container
stopped, or no matching container at all.  (On a listing with a malformed
line the thrown field access is caught and the probe degrades to
`running = false` instead.) -/
theorem checkBirdNetGoStatus_healthy_running (images ps : String)
    (h : HealthData)
    (hs : h.status = "healthy" ∨ h.status = "degraded")
    (hw : psWellFormed ps = true) :
    (checkBirdNetGoStatus (some images) (.ok (some h)) (some ps)).running = true ∧
    ((checkBirdNetGoStatus (some images) (.ok (some h)) (some ps)).status).isSome
      = true := by
  have hrun : (h.status == "healthy" || h.status == "degraded") = true := by
    rcases hs with h1 | h1 <;> simp [h1]
  unfold checkBirdNetGoStatus
  dsimp only
  by_cases he : jsTrim ps = ""
  · simp [he, hrun]
  · have hall : ∀ l ∈ splitChar (jsTrim ps) '\n', 4 ≤ (splitChar l '|').length := by
      unfold psWellFormed at hw
      rw [Bool.or_eq_true] at hw
      rcases hw with h2 | h2
      · exact absurd (by simpa using h2) he
      · intro l hl
        have h3 := List.all_eq_true.mp h2 l hl
        simpa using h3
    rcases findBirdnet_wf _ hall with ⟨line, hf, hm⟩ | hf
    · have h4 : 4 ≤ (splitChar line '|').length := hall line hm
      have hst : (splitChar line '|')[2]? = some (splitChar line '|')[2] :=
        List.getElem?_eq_getElem (by omega)
      simp [he, hf, hst, hrun]
    · simp [he, hf, hrun]

/-- Witness for C1 (amended): health says healthy while the engine lists
the matched container as exited — the probe still reports running. -/
theorem checkBirdNetGoStatus_healthy_running_witness :
    (checkBirdNetGoStatus (some "image list")
      (.ok (some (HealthData.mk "healthy")))
      (some "abc|ghcr.io/tphakala/birdnet-go:nightly|Exited (0) 2 hours ago|birdnet-go")).running
      = true ∧
    ((checkBirdNetGoStatus (some "image list")
      (.ok (some (HealthData.mk "healthy")))
      (some "abc|ghcr.io/tphakala/birdnet-go:nightly|Exited (0) 2 hours ago|birdnet-go")).status).isSome
      = true :=
  checkBirdNetGoStatus_healthy_running _ _ _ (Or.inl rfl) (by decide)

theorem envArgs_cons (e : String) (es : List String) :
    envArgs (e :: es) =
      (if jsStartsWith e "PATH=" || jsStartsWith e "HOME=" then [] else ["-e", e])
        ++ envArgs es := by
  simp [envArgs]

theorem envArgs_head (envs : List String) (x : String) (xs : List String)
    (h : envArgs envs = x :: xs) : x = "-e" := by
  induction envs generalizing x xs with
  | nil => simp [envArgs] at h
  | cons e es ih =>
    rw [envArgs_cons] at h
    by_cases hc : (jsStartsWith e "PATH=" || jsStartsWith e "HOME=") = true
    · rw [if_pos hc] at h
      exact ih x xs (by simpa using h)
    · rw [if_neg hc] at h
      exact (List.cons.injEq _ _ _ _ ▸ h).1.symm

theorem not_seqIn_envArgs (e : String)
    (he : (jsStartsWith e "PATH=" || jsStartsWith e "HOME=") = true) :
    ∀ envs : List String, ¬ SeqIn ["-e", e] (envArgs envs) := by
  have hne : e ≠ "-e" := by
    intro h
    rw [h] at he
    simp [jsStartsWith, leadEq] at he
  intro envs
  induction envs with
  | nil =>
    rintro ⟨s, t, h⟩
    rw [envArgs] at h
    simp at h
  | cons v vs ih =>
    rw [envArgs_cons]
    by_cases hv : (jsStartsWith v "PATH=" || jsStartsWith v "HOME=") = true
    · rw [if_pos hv]
      simpa using ih
    · rw [if_neg hv]
      rintro ⟨s, t, hEq⟩
      simp only [List.cons_append, List.nil_append, List.append_assoc] at hEq
      cases s with
      | nil =>
        obtain ⟨-, h2, -⟩ :
            "-e" = "-e" ∧ v = e ∧ envArgs vs = t := by simpa using hEq
        rw [h2] at hv
        exact hv he
      | cons a s1 =>
        obtain ⟨-, h2⟩ :
            "-e" = a ∧ v :: envArgs vs = s1 ++ "-e" :: e :: t := by simpa using hEq
        cases s1 with
        | nil =>
          obtain ⟨-, h4⟩ : v = "-e" ∧ envArgs vs = e :: t := by simpa using h2
          exact hne (envArgs_head vs e t h4)
        | cons b s2 =>
          obtain ⟨-, h4⟩ : v = b ∧ envArgs vs = s2 ++ "-e" :: e :: t := by
            simpa using h2
          exact ih ⟨s2, t, by simpa using h4⟩

/-- C5: for every inspect configuration, the docker-run argument list built
for the replacement container contains a `-p` pair for every host-port
binding, a `-v` pair for every bind-type mount, and a `-e` pair for every
environment variable not prefixed `PATH=`/`HOME=`; `PATH=`/`HOME=`-prefixed
variables never appear as a `-e` pair in the environment segment. -/
theorem upgradeBirdNetGo_createArgs (config : InspectConfig) (imageName : String) :
    (∀ cp hps, (cp, some hps) ∈ config.PortBindings.getD [] → ∀ b ∈ hps,
        SeqIn ["-p", b.HostPort ++ ":" ++ (splitChar cp '/').headD ""]
          (buildCreateArgs config imageName)) ∧
    (∀ m ∈ config.Mounts.getD [], m.mtype = "bind" →
        SeqIn ["-v", m.Source ++ ":" ++ m.Destination]
          (buildCreateArgs config imageName)) ∧
    (∀ e ∈ config.Env.getD [], jsStartsWith e "PATH=" = false →
        jsStartsWith e "HOME=" = false →
        SeqIn ["-e", e] (buildCreateArgs config imageName)) ∧
    (∀ e, (jsStartsWith e "PATH=" || jsStartsWith e "HOME=") = true →
        ¬ SeqIn ["-e", e] (envArgs (config.Env.getD []))) := by
  have hext : ∀ pat : List String,
      (SeqIn pat (portArgs (config.PortBindings.getD [])) ∨
       SeqIn pat (mountArgs (config.Mounts.getD [])) ∨
       SeqIn pat (envArgs (config.Env.getD []))) →
      SeqIn pat (buildCreateArgs config imageName) := by
    intro pat h
    unfold buildCreateArgs
    rcases h with h | h | h
    · exact SeqIn.append_left _ (SeqIn.append_left _
        (SeqIn.append_left _ (SeqIn.append_right _ h)))
    · exact SeqIn.append_left _ (SeqIn.append_left _ (SeqIn.append_right _ h))
    · exact SeqIn.append_left _ (SeqIn.append_right _ h)
  refine ⟨?_, ?_, ?_, fun e he => not_seqIn_envArgs e he _⟩
  · intro cp hps hmem b hb
    refine hext _ (Or.inl ?_)
    unfold portArgs
    have h2 := seqIn_of_mem_flatMap
      (fun b : PortBinding =>
        ["-p", b.HostPort ++ ":" ++ (splitChar cp '/').headD ""]) hb
    have h1 := seqIn_of_mem_flatMap
      (fun p : String × Option (List PortBinding) =>
        match p.2 with
        | some hostPorts =>
          hostPorts.flatMap (fun b =>
            ["-p", b.HostPort ++ ":" ++ (splitChar p.1 '/').headD ""])
        | none => []) hmem
    exact SeqIn.trans h2 h1
  · intro m hm hbind
    refine hext _ (Or.inr (Or.inl ?_))
    unfold mountArgs
    have h1 := seqIn_of_mem_flatMap
      (fun m : MountEntry =>
        if m.mtype == "bind" then ["-v", m.Source ++ ":" ++ m.Destination]
        else []) hm
    simpa [hbind] using h1
  · intro e hemem hP hH
    refine hext _ (Or.inr (Or.inr ?_))
    unfold envArgs
    have h1 := seqIn_of_mem_flatMap
      (fun e : String =>
        if jsStartsWith e "PATH=" || jsStartsWith e "HOME=" then []
        else ["-e", e]) hemem
    simpa [hP, hH] using h1

/-- Witness for C5: the concrete container of the claim (port `8080:8080`,
volume `/data:/data`, `FOO=bar`, plus `PATH`/`HOME` entries). -/
theorem upgradeBirdNetGo_createArgs_witness :
    SeqIn ["-p", "8080:8080"]
      (buildCreateArgs sampleInspectConfig "ghcr.io/tphakala/birdnet-go:nightly") ∧
    SeqIn ["-v", "/data:/data"]
      (buildCreateArgs sampleInspectConfig "ghcr.io/tphakala/birdnet-go:nightly") ∧
    SeqIn ["-e", "FOO=bar"]
      (buildCreateArgs sampleInspectConfig "ghcr.io/tphakala/birdnet-go:nightly") ∧
    ¬ SeqIn ["-e", "PATH=/usr/bin"]
      (envArgs (sampleInspectConfig.Env.getD [])) := by
  obtain ⟨hp, hm, he, hn⟩ :=
    upgradeBirdNetGo_createArgs sampleInspectConfig "ghcr.io/tphakala/birdnet-go:nightly"
  refine ⟨?_, ?_, ?_, ?_⟩
  · exact hp "8080/tcp" [{ HostPort := "8080" }] (by simp [sampleInspectConfig])
      { HostPort := "8080" } (by simp)
  · exact hm { mtype := "bind", Source := "/data", Destination := "/data" }
      (by simp [sampleInspectConfig]) rfl
  · exact he "FOO=bar" (by simp [sampleInspectConfig]) (by decide) (by decide)
  · exact hn "PATH=/usr/bin" (by decide)

theorem foldl_max_rebase (l : List String) (a : Nat) :
    l.foldl (fun m t => max m (dateOf t)) a = max a (maxDateOf l) := by
  induction l generalizing a with
  | nil => simp [maxDateOf]
  | cons t l ih =>
    have h1 : maxDateOf (t :: l) = max (dateOf t) (maxDateOf l) := by
      show (t :: l).foldl (fun m t => max m (dateOf t)) 0 = _
      rw [List.foldl_cons, ih]
      omega
    rw [List.foldl_cons, ih, h1]
    omega

theorem maxDateOf_cons (t : String) (l : List String) :
    maxDateOf (t :: l) = max (dateOf t) (maxDateOf l) := by
  show (t :: l).foldl (fun m t => max m (dateOf t)) 0 = _
  rw [List.foldl_cons, foldl_max_rebase]
  omega

theorem tagMatches_scan (t : String) (h : tagMatches t = true) :
    scanNightly t.data = some (dateOf t) := by
  unfold tagMatches at h
  rw [Bool.and_eq_true] at h
  obtain ⟨d, hd⟩ := Option.isSome_iff_exists.mp h.2
  rw [hd]
  unfold dateOf
  rw [hd]
  rfl

theorem stepTag_eq_of_not (acc : NightlyAcc) (t : String)
    (h : tagMatches t = false) : stepTag acc t = acc := by
  simp [stepTag, h]

theorem stepTag_eq_of_match (acc : NightlyAcc) (t : String)
    (h : tagMatches t = true) :
    stepTag acc t =
      if acc.latestDate < dateOf t then ⟨acc.tags ++ [t], dateOf t, t⟩
      else ⟨acc.tags ++ [t], acc.latestDate, acc.latestTag⟩ := by
  unfold stepTag
  rw [if_pos h, tagMatches_scan t h]

theorem stepTag_foldl (ts : List String) (acc : NightlyAcc) :
    ((ts.foldl stepTag acc).tags = acc.tags ++ ts.filter tagMatches) ∧
    ((ts.foldl stepTag acc).latestDate
        = max acc.latestDate (maxDateOf (ts.filter tagMatches))) ∧
    (((ts.foldl stepTag acc).latestTag = acc.latestTag ∧
      (ts.foldl stepTag acc).latestDate = acc.latestDate) ∨
     ((ts.foldl stepTag acc).latestTag ∈ ts.filter tagMatches ∧
      dateOf (ts.foldl stepTag acc).latestTag
        = (ts.foldl stepTag acc).latestDate)) := by
  induction ts generalizing acc with
  | nil => simp [maxDateOf]
  | cons t ts ih =>
    rw [List.foldl_cons]
    cases htm : tagMatches t with
    | false =>
      rw [stepTag_eq_of_not acc t htm]
      rw [List.filter_cons]
      simp only [htm, Bool.false_eq_true, if_false]
      exact ih acc
    | true =>
      rw [stepTag_eq_of_match acc t htm]
      rw [List.filter_cons]
      simp only [htm, if_true]
      by_cases hlt : acc.latestDate < dateOf t
      · rw [if_pos hlt]
        obtain ⟨ih1, ih2, ih3⟩ := ih ⟨acc.tags ++ [t], dateOf t, t⟩
        dsimp only at ih1 ih2 ih3
        refine ⟨by rw [ih1]; simp, ?_, ?_⟩
        · rw [ih2, maxDateOf_cons]
          omega
        · rcases ih3 with ⟨hA, hB⟩ | ⟨hA, hB⟩
          · refine Or.inr ⟨?_, ?_⟩
            · rw [hA]; simp
            · rw [hA, hB]
          · exact Or.inr ⟨List.mem_cons_of_mem _ hA, hB⟩
      · rw [if_neg hlt]
        obtain ⟨ih1, ih2, ih3⟩ := ih ⟨acc.tags ++ [t], acc.latestDate, acc.latestTag⟩
        dsimp only at ih1 ih2 ih3
        refine ⟨by rw [ih1]; simp, ?_, ?_⟩
        · rw [ih2, maxDateOf_cons]
          omega
        · rcases ih3 with ⟨hA, hB⟩ | ⟨hA, hB⟩
          · exact Or.inl ⟨hA, hB⟩
          · exact Or.inr ⟨List.mem_cons_of_mem _ hA, hB⟩

theorem mem_insertTagDesc (t x : String) (l : List String) :
    x ∈ insertTagDesc t l ↔ x = t ∨ x ∈ l := by
  induction l with
  | nil => simp [insertTagDesc]
  | cons u us ih =>
    unfold insertTagDesc
    by_cases h : dateOf t ≤ dateOf u
    · rw [if_pos h]
      simp only [List.mem_cons, ih]
      tauto
    · rw [if_neg h]
      simp only [List.mem_cons]

theorem pairwise_insertTagDesc (t : String) (l : List String)
    (h : List.Pairwise (fun a b => dateOf b ≤ dateOf a) l) :
    List.Pairwise (fun a b => dateOf b ≤ dateOf a) (insertTagDesc t l) := by
  induction l with
  | nil => simp [insertTagDesc]
  | cons u us ih =>
    rw [List.pairwise_cons] at h
    obtain ⟨hu, hus⟩ := h
    unfold insertTagDesc
    by_cases hle : dateOf t ≤ dateOf u
    · rw [if_pos hle, List.pairwise_cons]
      refine ⟨?_, ih hus⟩
      intro x hx
      rcases (mem_insertTagDesc t x us).mp hx with rfl | hxus
      · exact hle
      · exact hu x hxus
    · rw [if_neg hle, List.pairwise_cons]
      refine ⟨?_, List.pairwise_cons.mpr ⟨hu, hus⟩⟩
      intro x hx
      rcases List.mem_cons.mp hx with rfl | hxus
      · omega
      · have h2 := hu x hxus
        omega

theorem foldl_insert_pairwise (l : List String) :
    ∀ acc, List.Pairwise (fun a b => dateOf b ≤ dateOf a) acc →
      List.Pairwise (fun a b => dateOf b ≤ dateOf a)
        (l.foldl (fun acc t => insertTagDesc t acc) acc) := by
  induction l with
  | nil => intro acc h; simpa using h
  | cons t ts ih =>
    intro acc h
    rw [List.foldl_cons]
    exact ih _ (pairwise_insertTagDesc t acc h)

theorem pairwise_sortTagsDesc (l : List String) :
    List.Pairwise (fun a b => dateOf b ≤ dateOf a) (sortTagsDesc l) :=
  foldl_insert_pairwise l [] (by simp)

/-- C3 counterexample: with current version `nightly-20250101` and a registry
response whose only matching tag is `nightly-00000000` (embedded date 0),
the loop's strict comparison against the initial 0 never fires, so
`latestNightly` is the literal `"nightly"` — not the greatest-dated matching
tag, which exists. -/
theorem checkForUpdates_zero_date_tag :
    (checkForUpdates sampleNightlyPrev (.ok (some [some ["nightly-00000000"]]))
        (.error ())).latestNightly = some "nightly" ∧
    matchingTags [some ["nightly-00000000"]] = ["nightly-00000000"] ∧
    (checkForUpdates sampleNightlyPrev (.ok (some [some ["nightly-00000000"]]))
        (.error ())).latestNightly ≠ some "nightly-00000000" := by decide

/-- C3 (amended): for every current nightly version with an embedded 8-digit
date `d` and every decoded registry response in which some matching tag has
a nonzero embedded date, `checkForUpdates` selects as `latestNightly` a
matching tag whose embedded date is the greatest, and sets
`updateAvailable` exactly when that greatest date exceeds `d`.  (When every
matching tag's embedded date is `00000000` the literal `"nightly"` is
stored instead — see the counterexample.) -/
theorem checkForUpdates_selects_latest_nightly (prev : VersionInfo)
    (versions : List (Option (List String)))
    (rel : Except Unit (Option StableRelease)) (d : Nat)
    (hN : jsIncludes (jsReplaceFirst prev.current 'v') "nightly" = true)
    (hD : scanNightly (jsReplaceFirst prev.current 'v').data = some d)
    (hPos : 0 < maxDateOf (matchingTags versions)) :
    ∃ t, (checkForUpdates prev (.ok (some versions)) rel).latestNightly = some t ∧
      t ∈ matchingTags versions ∧
      dateOf t = maxDateOf (matchingTags versions) ∧
      (checkForUpdates prev (.ok (some versions)) rel).updateAvailable
        = decide (d < maxDateOf (matchingTags versions)) := by
  obtain ⟨h1, h2, h3⟩ := stepTag_foldl (flattenTags versions) ⟨[], 0, ""⟩
  dsimp only at h2 h3
  have h2a : ((flattenTags versions).foldl stepTag ⟨[], 0, ""⟩).latestDate
      = maxDateOf (matchingTags versions) := by
    rw [h2]
    unfold matchingTags
    omega
  have hcfu : checkForUpdates prev (.ok (some versions)) rel =
      nightlyRegistryUpdate
        { prev with checkingUpdate := true, updateError := none } d versions := by
    unfold checkForUpdates
    dsimp only
    rw [if_pos hN, hD]
  rcases h3 with ⟨hA, hB⟩ | ⟨hA, hB⟩
  · exfalso
    rw [h2a] at hB
    omega
  · have hA2 : ((flattenTags versions).foldl stepTag ⟨[], 0, ""⟩).latestTag
        ∈ matchingTags versions := hA
    have hne : ((flattenTags versions).foldl stepTag ⟨[], 0, ""⟩).latestTag ≠ "" := by
      intro hempty
      have hTM := (List.mem_filter.mp hA).2
      rw [hempty] at hTM
      exact absurd hTM (by decide)
    refine ⟨_, ?_, hA2, ?_, ?_⟩
    · rw [hcfu]
      unfold nightlyRegistryUpdate
      dsimp only
      rw [if_neg hne]
    · rw [hB, h2a]
    · rw [hcfu]
      unfold nightlyRegistryUpdate
      dsimp only
      rw [h2a]

/-- Witness for C3 (amended) at a concrete registry response with two
matching tags. -/
theorem checkForUpdates_selects_latest_nightly_witness :
    ∃ t, (checkForUpdates sampleNightlyPrev
        (.ok (some [some ["nightly-20250105", "nightly-20250202"]]))
        (.error ())).latestNightly = some t ∧
      t ∈ matchingTags [some ["nightly-20250105", "nightly-20250202"]] ∧
      dateOf t = maxDateOf (matchingTags [some ["nightly-20250105", "nightly-20250202"]]) ∧
      (checkForUpdates sampleNightlyPrev
        (.ok (some [some ["nightly-20250105", "nightly-20250202"]]))
        (.error ())).updateAvailable
        = decide (20250101 < maxDateOf (matchingTags
            [some ["nightly-20250105", "nightly-20250202"]])) :=
  checkForUpdates_selects_latest_nightly sampleNightlyPrev _ _ 20250101
    (by decide) (by decide) (by decide)

/-- C10: after every successful nightly registry check, the stored
`nightlyTags` sequence has at most 5 entries and is sorted in non-increasing
order of the tags' embedded dates, however many matching tags the registry
returned. -/
theorem checkForUpdates_nightlyTags_sorted_capped (prev : VersionInfo)
    (versions : List (Option (List String)))
    (rel : Except Unit (Option StableRelease))
    (hN : jsIncludes (jsReplaceFirst prev.current 'v') "nightly" = true) :
    ∃ ts, (checkForUpdates prev (.ok (some versions)) rel).nightlyTags = some ts ∧
      ts.length ≤ 5 ∧
      List.Pairwise (fun a b => dateOf b ≤ dateOf a) ts := by
  have hcfu : checkForUpdates prev (.ok (some versions)) rel =
      nightlyRegistryUpdate
        { prev with checkingUpdate := true, updateError := none }
        (match scanNightly (jsReplaceFirst prev.current 'v').data with
         | some d => d
         | none => 0) versions := by
    unfold checkForUpdates
    dsimp only
    rw [if_pos hN]
  rw [hcfu]
  refine ⟨(sortTagsDesc (((flattenTags versions).foldl stepTag
      ⟨[], 0, ""⟩).tags)).take 5, ?_, ?_, ?_⟩
  · rfl
  · exact List.length_take_le 5 _
  · exact List.Pairwise.sublist (List.take_sublist _ _) (pairwise_sortTagsDesc _)

/-- Witness for C10 at a concrete registry response. -/
theorem checkForUpdates_nightlyTags_sorted_capped_witness :
    ∃ ts, (checkForUpdates sampleNightlyPrev
        (.ok (some [some ["nightly-20250105", "nightly-20250202"]]))
        (.error ())).nightlyTags = some ts ∧
      ts.length ≤ 5 ∧
      List.Pairwise (fun a b => dateOf b ≤ dateOf a) ts :=
  checkForUpdates_nightlyTags_sorted_capped sampleNightlyPrev _ _ (by decide)

theorem seqIn_fieldJson (k v : String) : SeqIn v.data (fieldJsonChars (k, v)) := by
  refine ⟨'"' :: k.data ++ ['"', ':', '"'], ['"'], ?_⟩
  unfold fieldJsonChars
  simp

theorem seqIn_fieldsJson (k v : String) (fs : List (String × String))
    (h : (k, v) ∈ fs) : SeqIn v.data (fieldsJsonChars fs) := by
  induction fs with
  | nil => cases h
  | cons kv rest ih =>
    rcases List.mem_cons.mp h with heq | hmem
    · cases rest with
      | nil =>
        rw [← heq]
        exact seqIn_fieldJson k v
      | cons kv2 rest2 =>
        show SeqIn v.data (fieldJsonChars kv ++ ',' :: fieldsJsonChars (kv2 :: rest2))
        rw [← heq]
        exact SeqIn.append_left _ (seqIn_fieldJson k v)
    · cases rest with
      | nil => cases hmem
      | cons kv2 rest2 =>
        show SeqIn v.data (fieldJsonChars kv ++ ',' :: fieldsJsonChars (kv2 :: rest2))
        exact SeqIn.append_right _ (SeqIn.append_right [','] (ih hmem))

theorem seqIn_stringify (e : LogEntry) (k v : String) (h : (k, v) ∈ e.fields) :
    SeqIn v.data (stringifyEntry e).data := by
  have h1 := seqIn_fieldsJson k v e.fields h
  show SeqIn v.data ('\x7b' :: (fieldsJsonChars e.fields ++ ['\x7d']))
  exact SeqIn.append_right ['\x7b'] (SeqIn.append_left ['\x7d'] h1)

theorem searchPass_of_field (e : LogEntry) (s k v : String)
    (hkv : (k, v) ∈ e.fields)
    (hsub : SeqIn (s.data.map Char.toLower) (v.data.map Char.toLower)) :
    jsIncludesCI (stringifyEntry e) s = true := by
  unfold jsIncludesCI
  rw [seqInB_iff]
  exact SeqIn.trans hsub (SeqIn.map Char.toLower (seqIn_stringify e k v hkv))

/-- C8: the log filter keeps an entry exactly when the level condition
(filter is `all`, or the entry's level equals the filter up to case) and
the search condition (search empty, or the lower-cased serialization of the
whole entry contains the lower-cased search text) both hold; a search text
occurring case-insensitively in any field value — also one outside
time/level/msg/service — keeps the entry; and filtering returns a sublist,
leaving the underlying buffer unmodified. -/
theorem filteredLogs_level_and_search (L s : String) (logs : List LogEntry) :
    (∀ e, keepLog L s e =
      ((L == "all" || (e.level.map jsToUpper) == some (jsToUpper L)) &&
       (s == "" || jsIncludesCI (stringifyEntry e) s))) ∧
    (∀ e, e ∈ filteredLogs L s logs ↔ e ∈ logs ∧ keepLog L s e = true) ∧
    (∀ e k v, e ∈ logs → (k, v) ∈ e.fields →
      SeqIn (s.data.map Char.toLower) (v.data.map Char.toLower) →
      e ∈ filteredLogs "all" s logs) ∧
    (filteredLogs L s logs).Sublist logs := by
  refine ⟨?_, ?_, ?_, List.filter_sublist _⟩
  · intro e
    unfold keepLog
    cases hL : (L == "all") <;>
      cases hlv : ((e.level.map jsToUpper) == some (jsToUpper L)) <;>
        cases hS : (s == "") <;>
          cases hI : (jsIncludesCI (stringifyEntry e) s) <;>
            simp [bne, hL, hlv, hS, hI]
  · intro e
    exact List.mem_filter
  · intro e k v he hkv hsub
    refine List.mem_filter.mpr ⟨he, ?_⟩
    have hpass := searchPass_of_field e s k v hkv hsub
    unfold keepLog
    simp [hpass]

/-- Witness for C8: filtering `[ERROR, INFO, DEBUG]` entries by `ERROR`
returns exactly the one matching entry, and a search hitting the value of a
field outside time/level/msg/service still returns that entry. -/
theorem filteredLogs_level_and_search_witness :
    filteredLogs "ERROR" ""
      [LogEntry.mk [("level", "ERROR"), ("msg", "a")],
       LogEntry.mk [("level", "INFO"), ("msg", "b")],
       LogEntry.mk [("level", "DEBUG"), ("msg", "c")]] =
      [LogEntry.mk [("level", "ERROR"), ("msg", "a")]] ∧
    LogEntry.mk [("time", "t"), ("level", "INFO"), ("note", "BigBoom")] ∈
      filteredLogs "all" "Boom"
        [LogEntry.mk [("time", "t"), ("level", "INFO"), ("note", "BigBoom")]] :=
  ⟨by decide,
   (filteredLogs_level_and_search "all" "Boom"
       [LogEntry.mk [("time", "t"), ("level", "INFO"), ("note", "BigBoom")]]).2.2.1
     _ "note" "BigBoom" (by simp) (by simp) (seqInB_iff.mp (by decide))⟩
